import Mathlib

set_option maxHeartbeats 1000000

/-!
Verification of the request-handling and data-shaping layer of a two-resource
HTTP API (User and Post).  The source of authority is `users/serializers.py`
(the representation mappers: UserSerializer, PostSerializer with a read-only
computed `author_name`, and CreatePostSerializer) and `users/views.py` (the
resource controllers: two ModelViewSets, the `posts` sub-route on users, and
`get_serializer_class` on the Post controller).  The entity store
(`users/models.py`, the ORM layer) is not part of the source under
verification; its primitives are modelled from the spec where noted.

Framework semantics embedded here, faithful to Django REST Framework's
generic view mixins, which the two ViewSets inherit unmodified:
* every id-keyed operation first resolves the object (404 NotFound if
  absent) and only then validates input;
* read-only serializer fields (`read_only_fields`, and fields declared
  `read_only=True`) are dropped from input, never written;
* a create request validates input with the serializer returned by
  `get_serializer_class`, saves, and builds the response body from that very
  same serializer's rendering of the saved instance;
* PUT validates all writable fields as required, PATCH accepts any subset;
* `CharField(source='author.first_name')` resolves the referenced User at
  render time; DRF's attribute traversal catches ObjectDoesNotExist, so a
  dangling reference serializes author_name as null inside a success body
  rather than raising.
-/

deriving instance DecidableEq for Except

/-- User entity as persisted by the store (spec, data model). -/
structure User where
  id : Nat
  email : String
  first_name : String
  last_name : String
  is_active : Bool
  created_at : Nat
  updated_at : Nat
  deriving DecidableEq

/-- Post entity as persisted by the store; `author` holds a User id. -/
structure Post where
  id : Nat
  title : String
  content : String
  author : Nat
  published : Bool
  created_at : Nat
  updated_at : Nat
  deriving DecidableEq

/-- Modelled from the spec: the entity store state (`users/models.py` is not
under src).  Auto-incrementing identity per entity and a clock supplying the
automatic timestamps; records are kept in insertion order. -/
structure Store where
  users : List User
  posts : List Post
  nextUserId : Nat
  nextPostId : Nat
  clock : Nat
  deriving DecidableEq

/-- Modelled from the spec: store lookup-by-id for Users. -/
def lookupUser (s : Store) (uid : Nat) : Option User :=
  s.users.find? (fun u => u.id == uid)

/-- Modelled from the spec: store lookup-by-id for Posts. -/
def lookupPost (s : Store) (pid : Nat) : Option Post :=
  s.posts.find? (fun p => p.id == pid)

/-- Modelled from the spec: store filter-by-field, keeping insertion order
(`Post.objects.filter(author=user)`). -/
def filterPostsByAuthor (s : Store) (uid : Nat) : List Post :=
  s.posts.filter (fun p => p.author == uid)

/-- Modelled from the spec: store insert of a User; the store assigns the id
and sets `created_at = updated_at` to the current instant. -/
def insertUser (s : Store) (e fn ln : String) (ia : Bool) : User × Store :=
  let u : User :=
    { id := s.nextUserId
      email := e
      first_name := fn
      last_name := ln
      is_active := ia
      created_at := s.clock
      updated_at := s.clock }
  (u, { s with
        users := s.users ++ [u]
        nextUserId := s.nextUserId + 1
        clock := s.clock + 1 })

/-- Modelled from the spec: store insert of a Post, same bookkeeping. -/
def insertPost (s : Store) (t c : String) (a : Nat) (pb : Bool) : Post × Store :=
  let p : Post :=
    { id := s.nextPostId
      title := t
      content := c
      author := a
      published := pb
      created_at := s.clock
      updated_at := s.clock }
  (p, { s with
        posts := s.posts ++ [p]
        nextPostId := s.nextPostId + 1
        clock := s.clock + 1 })

/-- Replace the User row carrying the given record's id. -/
def setUser (l : List User) (u' : User) : List User :=
  l.map (fun x => if x.id == u'.id then u' else x)

/-- Replace the Post row carrying the given record's id. -/
def setPost (l : List Post) (p' : Post) : List Post :=
  l.map (fun x => if x.id == p'.id then p' else x)

/-- Modelled from the spec: store update of an existing User row; the store
refreshes `updated_at` on every write.  Returns the record as stored. -/
def saveUser (s : Store) (u' : User) : User × Store :=
  let u'' := { u' with updated_at := s.clock }
  (u'', { s with users := setUser s.users u'', clock := s.clock + 1 })

/-- Modelled from the spec: store update of an existing Post row. -/
def savePost (s : Store) (p' : Post) : Post × Store :=
  let p'' := { p' with updated_at := s.clock }
  (p'', { s with posts := setPost s.posts p'', clock := s.clock + 1 })

/-- Modelled from the spec: store delete of a User row. -/
def removeUser (s : Store) (uid : Nat) : Store :=
  { s with users := s.users.filter (fun u => u.id != uid) }

/-- Modelled from the spec: store delete of a Post row. -/
def removePost (s : Store) (pid : Nat) : Store :=
  { s with posts := s.posts.filter (fun p => p.id != pid) }

/-- Error taxonomy of the layer (spec, error handling design). -/
inductive ApiError where
  | notFound
  | validation (field : String)
  | dataIntegrityFault
  deriving DecidableEq

/-- Wire shape rendered by UserSerializer: all seven fields. -/
structure UserView where
  id : Nat
  email : String
  first_name : String
  last_name : String
  is_active : Bool
  created_at : Nat
  updated_at : Nat
  deriving DecidableEq

/-- UserSerializer rendering (fields list of `serializers.py`). -/
def renderUser (u : User) : UserView :=
  { id := u.id
    email := u.email
    first_name := u.first_name
    last_name := u.last_name
    is_active := u.is_active
    created_at := u.created_at
    updated_at := u.updated_at }

/-- Wire shape rendered by PostSerializer: the eight fields of its `Meta`,
including the computed read-only `author_name`, which is nullable on the
wire (none stands for JSON null). -/
structure PostView where
  id : Nat
  title : String
  content : String
  author : Nat
  author_name : Option String
  published : Bool
  created_at : Nat
  updated_at : Nat
  deriving DecidableEq

/-- The PostSerializer rendering of a Post whose author's first name
resolved. -/
def postViewOf (p : Post) (name : String) : PostView :=
  { id := p.id
    title := p.title
    content := p.content
    author := p.author
    author_name := some name
    published := p.published
    created_at := p.created_at
    updated_at := p.updated_at }

/-- PostSerializer rendering: `author_name = CharField(source='author.first_name')`
is resolved through DRF's attribute traversal, which catches a dangling
reference (ObjectDoesNotExist) and yields None, so the Post still renders
successfully with author_name null. -/
def renderPost (s : Store) (p : Post) : PostView :=
  { id := p.id
    title := p.title
    content := p.content
    author := p.author
    author_name := (lookupUser s p.author).map User.first_name
    published := p.published
    created_at := p.created_at
    updated_at := p.updated_at }

/-- Wire shape of CreatePostSerializer: only title, content, author,
published (its `Meta.fields`); no id, no timestamps, no author_name. -/
structure CreatePostView where
  title : String
  content : String
  author : Nat
  published : Bool
  deriving DecidableEq

/-- CreatePostSerializer rendering of a Post. -/
def renderCreatePost (p : Post) : CreatePostView :=
  { title := p.title
    content := p.content
    author := p.author
    published := p.published }

/-- The serializer many=True rendering used by list-shaped responses. -/
def renderAll (s : Store) (l : List Post) : List PostView :=
  l.map (renderPost s)

/-- Client input for User writes.  Read-only fields (id, created_at,
updated_at) may be supplied by the client but are dropped by the serializer. -/
structure UserInput where
  id : Option Nat
  email : Option String
  first_name : Option String
  last_name : Option String
  is_active : Option Bool
  created_at : Option Nat
  updated_at : Option Nat
  deriving DecidableEq

/-- Client input for Post writes.  Both Post serializers expose exactly the
writable fields title, content, author, published (in the full view, id,
timestamps and author_name are read-only, hence dropped from input). -/
structure PostInput where
  title : Option String
  content : Option String
  author : Option Nat
  published : Option Bool
  deriving DecidableEq

/-- The actions of the Post controller (ModelViewSet's action names; `patch`
stands for the PATCH partial-update action). -/
inductive PostAction where
  | list
  | create
  | retrieve
  | update
  | patch
  | destroy
  deriving DecidableEq

/-- The two serializer classes of the Post controller. -/
inductive SerializerKind where
  | postSerializer
  | createPostSerializer
  deriving DecidableEq

/-- `PostViewSet.get_serializer_class` (views.py): CreatePostSerializer for
the create action, PostSerializer for everything else. -/
def get_serializer_class (action : PostAction) : SerializerKind :=
  if action = PostAction.create then SerializerKind.createPostSerializer
  else SerializerKind.postSerializer

/-- A Post response body, shaped by whichever serializer rendered it. -/
inductive Rendered where
  | full (v : PostView)
  | creation (v : CreatePostView)
  deriving DecidableEq

/-- Whether a rendered Post body carries the full Post view. -/
def Rendered.isFull : Rendered → Bool
  | .full _ => true
  | .creation _ => false

/-- The author_name value of a successful full-view Post response, if any. -/
def respAuthorName : Except ApiError Rendered → Option String
  | .ok (.full v) => v.author_name
  | _ => none

/-- Render a Post with the given serializer class. -/
def renderWith (k : SerializerKind) (s : Store) (p : Post) : Rendered :=
  match k with
  | .postSerializer => .full (renderPost s p)
  | .createPostSerializer => .creation (renderCreatePost p)

/-- User create: email, first_name, last_name are required writable fields;
is_active defaults to true; id and timestamps are store-assigned.  Renders
the stored entity through the User view. -/
def userCreate (s : Store) (inp : UserInput) : Except ApiError UserView × Store :=
  match inp.email, inp.first_name, inp.last_name with
  | some e, some fn, some ln =>
    let r := insertUser s e fn ln (inp.is_active.getD true)
    (.ok (renderUser r.1), r.2)
  | _, _, _ => (.error (.validation "required"), s)

/-- User retrieve: lookup by id, NotFound if absent. -/
def userRetrieve (s : Store) (uid : Nat) : Except ApiError UserView × Store :=
  match lookupUser s uid with
  | some u => (.ok (renderUser u), s)
  | none => (.error .notFound, s)

/-- User full update (PUT): object first, then all writable fields required;
read-only input fields are ignored; the store refreshes updated_at. -/
def userUpdate (s : Store) (uid : Nat) (inp : UserInput) :
    Except ApiError UserView × Store :=
  match lookupUser s uid with
  | none => (.error .notFound, s)
  | some u =>
    match inp.email, inp.first_name, inp.last_name, inp.is_active with
    | some e, some fn, some ln, some ia =>
      let r := saveUser s
        { u with
          email := e
          first_name := fn
          last_name := ln
          is_active := ia }
      (.ok (renderUser r.1), r.2)
    | _, _, _, _ => (.error (.validation "required"), s)

/-- User partial update (PATCH): object first; each supplied writable field
replaces the stored value, unspecified fields keep their prior values. -/
def userPatch (s : Store) (uid : Nat) (inp : UserInput) :
    Except ApiError UserView × Store :=
  match lookupUser s uid with
  | none => (.error .notFound, s)
  | some u =>
    let r := saveUser s
      { u with
        email := inp.email.getD u.email
        first_name := inp.first_name.getD u.first_name
        last_name := inp.last_name.getD u.last_name
        is_active := inp.is_active.getD u.is_active }
    (.ok (renderUser r.1), r.2)

/-- User delete: object first, then removal; empty success body. -/
def userDelete (s : Store) (uid : Nat) : Except ApiError Unit × Store :=
  match lookupUser s uid with
  | none => (.error .notFound, s)
  | some _ => (.ok (), removeUser s uid)

/-- `UserViewSet.posts` (views.py): `get_object()` (NotFound if absent), then
`Post.objects.filter(author=user)` rendered with `PostSerializer(many=True)`. -/
def postsOfUser (s : Store) (uid : Nat) :
    Except ApiError (List PostView) × Store :=
  match lookupUser s uid with
  | none => (.error .notFound, s)
  | some _ => (.ok (renderAll s (filterPostsByAuthor s uid)), s)

/-- Post create: input is validated with the serializer selected by
`get_serializer_class` for the create action (title, content, author
required; published defaults to false; author must resolve to an existing
User, else Validation).  The saved instance is rendered by that same
serializer to form the response body. -/
def postCreate (s : Store) (inp : PostInput) : Except ApiError Rendered × Store :=
  match inp.title, inp.content, inp.author with
  | some t, some c, some a =>
    match lookupUser s a with
    | none => (.error (.validation "author"), s)
    | some _ =>
      let r := insertPost s t c a (inp.published.getD false)
      (.ok (renderWith (get_serializer_class PostAction.create) r.2 r.1), r.2)
  | _, _, _ => (.error (.validation "required"), s)

/-- The serializer many=True rendering with an explicit serializer class. -/
def renderAllWith (k : SerializerKind) (s : Store) (l : List Post) :
    List Rendered :=
  l.map (renderWith k s)

/-- Post list: every stored Post rendered by the list action's serializer. -/
def postList (s : Store) : Except ApiError (List Rendered) × Store :=
  (.ok (renderAllWith (get_serializer_class PostAction.list) s s.posts), s)

/-- Post retrieve: lookup by id, rendered by the retrieve action's serializer. -/
def postRetrieve (s : Store) (pid : Nat) : Except ApiError Rendered × Store :=
  match lookupPost s pid with
  | none => (.error .notFound, s)
  | some p => (.ok (renderWith (get_serializer_class PostAction.retrieve) s p), s)

/-- Post full update (PUT): object first; all writable fields required; a
supplied author id must resolve to an existing User; store refreshes
updated_at; response rendered by the update action's serializer. -/
def postUpdate (s : Store) (pid : Nat) (inp : PostInput) :
    Except ApiError Rendered × Store :=
  match lookupPost s pid with
  | none => (.error .notFound, s)
  | some p =>
    match inp.title, inp.content, inp.author, inp.published with
    | some t, some c, some a, some pb =>
      match lookupUser s a with
      | none => (.error (.validation "author"), s)
      | some _ =>
        let r := savePost s
          { p with
            title := t
            content := c
            author := a
            published := pb }
        (.ok (renderWith (get_serializer_class PostAction.update) r.2 r.1), r.2)
    | _, _, _, _ => (.error (.validation "required"), s)

/-- Post partial update (PATCH): object first; supplied fields replace stored
values; a supplied author id must resolve to an existing User. -/
def postPatch (s : Store) (pid : Nat) (inp : PostInput) :
    Except ApiError Rendered × Store :=
  match lookupPost s pid with
  | none => (.error .notFound, s)
  | some p =>
    let authorOk := match inp.author with
      | none => true
      | some a => (lookupUser s a).isSome
    if authorOk then
      let r := savePost s
        { p with
          title := inp.title.getD p.title
          content := inp.content.getD p.content
          author := inp.author.getD p.author
          published := inp.published.getD p.published }
      (.ok (renderWith (get_serializer_class PostAction.patch) r.2 r.1), r.2)
    else (.error (.validation "author"), s)

/-- Post delete: object first, then removal. -/
def postDelete (s : Store) (pid : Nat) : Except ApiError Unit × Store :=
  match lookupPost s pid with
  | none => (.error .notFound, s)
  | some _ => (.ok (), removePost s pid)

/-- Store well-formedness: every record's id is below the id counter and
every timestamp is below the clock.  Every state reachable from the empty
store through the operations above satisfies it. -/
def Store.Wf (s : Store) : Prop :=
  (∀ u ∈ s.users, u.id < s.nextUserId ∧ u.updated_at < s.clock) ∧
  (∀ p ∈ s.posts, p.id < s.nextPostId ∧ p.updated_at < s.clock)

instance (s : Store) : Decidable s.Wf := by
  unfold Store.Wf; infer_instance

/-- The Post record a successful create inserts, given the validated input. -/
def createdPost (s : Store) (t c : String) (a : Nat) (pb : Bool) : Post :=
  (insertPost s t c a pb).1

/-- Fixture: a stored User. -/
def fxUser : User :=
  { id := 1, email := "a@x.com", first_name := "A", last_name := "B", is_active := true, created_at := 0, updated_at := 0 }

/-- Fixture: a second stored User. -/
def fxUser2 : User :=
  { id := 2, email := "c@x.com", first_name := "C", last_name := "D", is_active := true, created_at := 1, updated_at := 1 }

/-- Fixture: a stored Post authored by `fxUser`. -/
def fxPost : Post :=
  { id := 1, title := "T", content := "Body", author := 1, published := false, created_at := 2, updated_at := 2 }

/-- Fixture: a well-formed store with two Users and one Post. -/
def fxStore : Store :=
  { users := [fxUser, fxUser2], posts := [fxPost], nextUserId := 3, nextPostId := 2, clock := 5 }

/-- Fixture: a valid Post creation input whose author is `fxUser2`. -/
def fxCreateInp : PostInput :=
  { title := some "T2", content := some "C2", author := some 2, published := none }

/-- Fixture: the Post that creating `fxCreateInp` against `fxStore` inserts. -/
def fxNewPost : Post :=
  { id := 2, title := "T2", content := "C2", author := 2, published := false, created_at := 5, updated_at := 5 }

/-- Fixture: `fxStore` after that create. -/
def fxStoreAfterCreate : Store :=
  { users := [fxUser, fxUser2], posts := [fxPost, fxNewPost], nextUserId := 3, nextPostId := 3, clock := 6 }

/-- Fixture: a Post creation input whose author id resolves to no User. -/
def fxBadAuthorInp : PostInput :=
  { title := some "T", content := some "Body", author := some 99, published := none }

/-- Fixture: a partial-update input supplying first_name plus client-supplied
values for the read-only fields id, created_at, updated_at. -/
def fxPatchInp : UserInput :=
  { id := some 99, email := none, first_name := some "Z", last_name := none, is_active := none, created_at := some 77, updated_at := some 88 }

/-- Fixture: `fxUser` after that partial update against `fxStore`. -/
def fxPatchedUser : User :=
  { id := 1, email := "a@x.com", first_name := "Z", last_name := "B", is_active := true, created_at := 0, updated_at := 5 }

/-- Fixture: a User input supplying nothing. -/
def fxEmptyUserInput : UserInput :=
  { id := none, email := none, first_name := none, last_name := none, is_active := none, created_at := none, updated_at := none }

/-- Fixture: a Post input supplying nothing. -/
def fxEmptyPostInput : PostInput :=
  { title := none, content := none, author := none, published := none }

/-- Fixture: a store holding a Post whose author id resolves to no User. -/
def fxBadStore : Store :=
  { users := [], posts := [fxPost], nextUserId := 1, nextPostId := 2, clock := 5 }

/-- Fixture: a full-update input moving `fxPost` to author `fxUser2`. -/
def fxUpdateInp : PostInput :=
  { title := some "T2", content := some "C2", author := some 2, published := some true }

/-- Fixture: `fxPost` after that full update against `fxStore`. -/
def fxUpdatedPost : Post :=
  { id := 1, title := "T2", content := "C2", author := 2, published := true, created_at := 2, updated_at := 5 }

/-- Fixture: a partial-update input supplying only a new author. -/
def fxAuthorOnlyInp : PostInput :=
  { title := none, content := none, author := some 2, published := none }

/-- Fixture: `fxPost` after that author-only partial update against `fxStore`. -/
def fxAuthorPatchedPost : Post :=
  { id := 1, title := "T", content := "Body", author := 2, published := false, created_at := 2, updated_at := 5 }

/-! ### Helper lemmas -/

theorem find?_of_set {α : Type} (key : α → Nat) (l : List α) (k : Nat) (x x' : α)
    (hid : key x' = k) (h : l.find? (fun y => key y == k) = some x) :
    (l.map (fun y => if key y == key x' then x' else y)).find?
      (fun y => key y == k) = some x' := by
  induction l with
  | nil => simp [List.find?] at h
  | cons a t ih =>
    by_cases hak : key a = k
    · simp [List.find?_cons, hak, hid]
    · rw [List.find?_cons_of_neg _ (by simp [hak])] at h
      simpa [List.find?_cons, hak, hid] using ih h

theorem find?_append_fresh {α : Type} (p : α → Bool) (l : List α) (x : α)
    (hl : ∀ y ∈ l, p y = false) (hx : p x = true) :
    (l ++ [x]).find? p = some x := by
  induction l with
  | nil => simp [List.find?_cons, hx]
  | cons a t ih =>
    have ha : p a = false := hl a (by simp)
    rw [List.cons_append, List.find?_cons_of_neg _ (by simp [ha])]
    exact ih (fun y hy => hl y (by simp [hy]))

theorem lookupUser_id (s : Store) (uid : Nat) (u : User)
    (h : lookupUser s uid = some u) : u.id = uid := by
  have := List.find?_some h
  simpa using this

theorem lookupUser_mem (s : Store) (uid : Nat) (u : User)
    (h : lookupUser s uid = some u) : u ∈ s.users :=
  List.mem_of_find?_eq_some h

theorem lookupPost_id (s : Store) (pid : Nat) (p : Post)
    (h : lookupPost s pid = some p) : p.id = pid := by
  have := List.find?_some h
  simpa using this

theorem lookupPost_mem (s : Store) (pid : Nat) (p : Post)
    (h : lookupPost s pid = some p) : p ∈ s.posts :=
  List.mem_of_find?_eq_some h

theorem renderPost_resolves (s : Store) (p : Post) (u : User)
    (h : lookupUser s p.author = some u) :
    renderPost s p = postViewOf p u.first_name := by
  simp [renderPost, postViewOf, h]

theorem renderAll_authored (s : Store) (uid : Nat) (u : User)
    (hu : lookupUser s uid = some u) :
    ∀ l : List Post, (∀ p ∈ l, p.author = uid) →
      renderAll s l = l.map (fun p => postViewOf p u.first_name) := by
  intro l
  induction l with
  | nil => intro _; simp [renderAll]
  | cons a t ih =>
    intro h
    have ha : a.author = uid := h a (by simp)
    have hr : renderPost s a = postViewOf a u.first_name :=
      renderPost_resolves s a u (by rw [ha]; exact hu)
    have ih' := ih (fun p hp => h p (List.mem_cons_of_mem _ hp))
    simp only [renderAll, List.map_cons] at ih' ⊢
    rw [hr, ih']

/-! ### Claim theorems -/

theorem postCreate_ok_not_full (s : Store) (inp : PostInput) (b : Rendered)
    (s' : Store) (hok : postCreate s inp = (.ok b, s')) : b.isFull = false := by
  rcases inp with ⟨ot, oc, oa, op⟩
  cases ot <;> cases oc <;> cases oa <;> simp [postCreate] at hok
  case some.some.some t c a =>
    cases hl : lookupUser s a with
    | none => simp [hl] at hok
    | some u =>
      simp [hl, get_serializer_class, renderWith] at hok
      obtain ⟨hb, -⟩ := hok
      subst hb
      rfl

/-- C1 (counterexample): on a well-formed store and a valid creation input
whose author exists, the create operation succeeds but its response body is
the creation-view rendering, not the full Post view the claim names. -/
theorem create_renders_creation_not_full :
    lookupUser fxStore 2 = some fxUser2
    ∧ (postCreate fxStore fxCreateInp).1 = .ok (.creation (renderCreatePost fxNewPost))
    ∧ (postCreate fxStore fxCreateInp).1.map Rendered.isFull = .ok false := by
  decide

/-- C1 (amended): the create operation parses its input with the Post
creation view and renders its result with that same creation view, so a
successful create response is never full-view shaped; every Post action
other than create uses the full Post view for both directions. -/
theorem create_view_selection (a : PostAction) (s : Store) (inp : PostInput)
    (b : Rendered) (s' : Store) (hne : a ≠ PostAction.create)
    (hok : postCreate s inp = (.ok b, s')) :
    get_serializer_class PostAction.create = SerializerKind.createPostSerializer
    ∧ get_serializer_class a = SerializerKind.postSerializer
    ∧ b.isFull = false := by
  refine ⟨rfl, ?_, postCreate_ok_not_full s inp b s' hok⟩
  simp [get_serializer_class, hne]

theorem create_view_selection_witness :
    get_serializer_class PostAction.create = SerializerKind.createPostSerializer
    ∧ get_serializer_class PostAction.retrieve = SerializerKind.postSerializer
    ∧ Rendered.isFull (Rendered.creation (renderCreatePost fxNewPost)) = false :=
  create_view_selection PostAction.retrieve fxStore fxCreateInp
    (Rendered.creation (renderCreatePost fxNewPost)) fxStoreAfterCreate
    (by decide) (by decide)

/-- C4: creating a Post whose author id resolves to no existing User fails
with a Validation error and returns the store unchanged, persisting no Post. -/
theorem post_create_bad_author (s : Store) (inp : PostInput) (a : Nat)
    (ha : inp.author = some a) (hu : lookupUser s a = none) :
    ∃ f, postCreate s inp = (.error (.validation f), s) := by
  rcases inp with ⟨ot, oc, oa, op⟩
  have ha' : oa = some a := ha
  subst ha'
  cases ot with
  | none => exact ⟨"required", by simp [postCreate]⟩
  | some t =>
    cases oc with
    | none => exact ⟨"required", by simp [postCreate]⟩
    | some c => exact ⟨"author", by simp [postCreate, hu]⟩

theorem post_create_bad_author_witness :
    postCreate fxStore fxBadAuthorInp = (.error (.validation "author"), fxStore) := by
  obtain ⟨f, hf⟩ :=
    post_create_bad_author fxStore fxBadAuthorInp 99 (by decide) (by decide)
  exact hf.trans (hf.symm.trans (by decide))

/-- C5: client-supplied values for the read-only User fields id, created_at
and updated_at never affect any User write: create, full update and partial
update give identical results whatever those three inputs hold. -/
theorem user_write_ignores_readonly_fields (s : Store) (uid : Nat)
    (inp : UserInput) (i ca ua : Option Nat) :
    userCreate s { inp with id := i, created_at := ca, updated_at := ua } = userCreate s inp
    ∧ userUpdate s uid { inp with id := i, created_at := ca, updated_at := ua } = userUpdate s uid inp
    ∧ userPatch s uid { inp with id := i, created_at := ca, updated_at := ua } = userPatch s uid inp :=
  ⟨rfl, rfl, rfl⟩

/-- C7: every id-keyed operation addressed to an id absent from the store
fails with NotFound and leaves the store unchanged: User retrieve, full
update, partial update, delete, posts-of-user, and the same four Post
operations. -/
theorem id_keyed_ops_notfound (s : Store) (uid pid : Nat) (uinp : UserInput)
    (pinp : PostInput) (hu : lookupUser s uid = none)
    (hp : lookupPost s pid = none) :
    userRetrieve s uid = (.error .notFound, s)
    ∧ userUpdate s uid uinp = (.error .notFound, s)
    ∧ userPatch s uid uinp = (.error .notFound, s)
    ∧ userDelete s uid = (.error .notFound, s)
    ∧ postsOfUser s uid = (.error .notFound, s)
    ∧ postRetrieve s pid = (.error .notFound, s)
    ∧ postUpdate s pid pinp = (.error .notFound, s)
    ∧ postPatch s pid pinp = (.error .notFound, s)
    ∧ postDelete s pid = (.error .notFound, s) := by
  refine ⟨?_, ?_, ?_, ?_, ?_, ?_, ?_, ?_, ?_⟩ <;>
    simp [userRetrieve, userUpdate, userPatch, userDelete, postsOfUser,
      postRetrieve, postUpdate, postPatch, postDelete, hu, hp]

theorem id_keyed_ops_notfound_witness :
    userRetrieve fxStore 99 = (.error .notFound, fxStore)
    ∧ postsOfUser fxStore 99 = (.error .notFound, fxStore)
    ∧ postRetrieve fxStore 99 = (.error .notFound, fxStore) := by
  have h := id_keyed_ops_notfound fxStore 99 99 fxEmptyUserInput
    fxEmptyPostInput (by decide) (by decide)
  exact ⟨h.1, h.2.2.2.2.1, h.2.2.2.2.2.1⟩

/-- C8 (counterexample): on a concrete store holding a Post whose author
reference resolves to no User, retrieve succeeds with a full-view body whose
author_name is null — no server error and no DataIntegrityFault is
surfaced, contrary to the claim. -/
theorem dangling_author_read_no_fault :
    lookupPost fxBadStore 1 = some fxPost
    ∧ lookupUser fxBadStore fxPost.author = none
    ∧ postRetrieve fxBadStore 1 = (.ok (.full (renderPost fxBadStore fxPost)), fxBadStore)
    ∧ (renderPost fxBadStore fxPost).author_name = none := by
  decide

/-- C8 (amended): reading a Post whose author reference resolves to no User
does not surface a server error: the retrieve succeeds, rendering the Post
through the full Post view with author_name null, so the store-level
inconsistency is hidden from the caller. -/
theorem dangling_author_read_null (s : Store) (pid : Nat) (p : Post)
    (hp : lookupPost s pid = some p) (hu : lookupUser s p.author = none) :
    postRetrieve s pid = (.ok (.full (renderPost s p)), s)
    ∧ (renderPost s p).author_name = none := by
  constructor
  · simp [postRetrieve, hp, get_serializer_class, renderWith]
  · simp [renderPost, hu]

theorem dangling_author_read_null_witness :
    postRetrieve fxBadStore 1 = (.ok (.full (renderPost fxBadStore fxPost)), fxBadStore)
    ∧ (renderPost fxBadStore fxPost).author_name = none :=
  dangling_author_read_null fxBadStore 1 fxPost (by decide) (by decide)

/-- C10: the posts-of-user operation is read-only: whatever the store state
and requested User id, and whether it succeeds or fails, it hands back the
store unchanged. -/
theorem posts_of_user_readonly (s : Store) (uid : Nat) :
    (postsOfUser s uid).2 = s := by
  unfold postsOfUser
  cases hu : lookupUser s uid with
  | none => rfl
  | some u => rfl

/-- C3: for an existing User id, GET /users/{id}/posts returns exactly the
Posts whose author equals that id, in insertion order, each rendered through
the full Post view, with the store untouched (so a User with no authored
Posts gets the empty sequence); an absent id fails with NotFound. -/
theorem posts_of_user_spec (s : Store) (uid : Nat) :
    (∀ u, lookupUser s uid = some u →
      postsOfUser s uid =
        (.ok ((filterPostsByAuthor s uid).map (fun p => postViewOf p u.first_name)), s))
    ∧ (lookupUser s uid = none → postsOfUser s uid = (.error .notFound, s)) := by
  constructor
  · intro u hu
    have hall : ∀ p ∈ filterPostsByAuthor s uid, p.author = uid := by
      intro p hp
      have hm := List.mem_filter.mp hp
      simpa using hm.2
    have hr := renderAll_authored s uid u hu (filterPostsByAuthor s uid) hall
    simp [postsOfUser, hu, hr]
  · intro hu
    simp [postsOfUser, hu]

theorem posts_of_user_spec_witness :
    postsOfUser fxStore 1 = (.ok [postViewOf fxPost "A"], fxStore)
    ∧ postsOfUser fxStore 2 = (.ok [], fxStore)
    ∧ postsOfUser fxStore 9 = (.error .notFound, fxStore) := by
  have h1 := (posts_of_user_spec fxStore 1).1 fxUser (by decide)
  have h2 := (posts_of_user_spec fxStore 2).1 fxUser2 (by decide)
  have h3 := (posts_of_user_spec fxStore 9).2 (by decide)
  exact ⟨h1.trans (by decide), h2.trans (by decide), h3⟩

/-- C6: partial update of an existing User changes exactly the supplied
writable fields, keeps every unsupplied writable field and the read-only id
and created_at at their prior values, and strictly increases updated_at. -/
theorem user_patch_frame (s : Store) (uid : Nat) (u : User) (inp : UserInput)
    (hwf : s.Wf) (hu : lookupUser s uid = some u) :
    ∃ u',
      userPatch s uid inp =
        (.ok (renderUser u'), { s with users := setUser s.users u', clock := s.clock + 1 })
      ∧ lookupUser (userPatch s uid inp).2 uid = some u'
      ∧ u'.email = inp.email.getD u.email
      ∧ u'.first_name = inp.first_name.getD u.first_name
      ∧ u'.last_name = inp.last_name.getD u.last_name
      ∧ u'.is_active = inp.is_active.getD u.is_active
      ∧ u'.id = u.id
      ∧ u'.created_at = u.created_at
      ∧ u.updated_at < u'.updated_at := by
  refine ⟨{ u with
      email := inp.email.getD u.email
      first_name := inp.first_name.getD u.first_name
      last_name := inp.last_name.getD u.last_name
      is_active := inp.is_active.getD u.is_active
      updated_at := s.clock }, ?_, ?_, rfl, rfl, rfl, rfl, rfl, rfl, ?_⟩
  · simp [userPatch, hu, saveUser]
  · have h2 : (userPatch s uid inp).2 =
        { s with
          users := setUser s.users { u with
            email := inp.email.getD u.email
            first_name := inp.first_name.getD u.first_name
            last_name := inp.last_name.getD u.last_name
            is_active := inp.is_active.getD u.is_active
            updated_at := s.clock }
          clock := s.clock + 1 } := by
      simp [userPatch, hu, saveUser]
    rw [h2]
    have hid : ({ u with
        email := inp.email.getD u.email
        first_name := inp.first_name.getD u.first_name
        last_name := inp.last_name.getD u.last_name
        is_active := inp.is_active.getD u.is_active
        updated_at := s.clock } : User).id = uid := lookupUser_id s uid u hu
    have hfind := find?_of_set User.id s.users uid u _ hid hu
    simpa [lookupUser, setUser] using hfind
  · exact (hwf.1 u (lookupUser_mem s uid u hu)).2

theorem user_patch_frame_witness :
    userPatch fxStore 1 fxPatchInp =
      (.ok (renderUser fxPatchedUser), (userPatch fxStore 1 fxPatchInp).2)
    ∧ lookupUser (userPatch fxStore 1 fxPatchInp).2 1 = some fxPatchedUser
    ∧ fxUser.updated_at < fxPatchedUser.updated_at := by
  obtain ⟨u', h1, h2, -, -, -, -, -, -, h9⟩ :=
    user_patch_frame fxStore 1 fxUser fxPatchInp (by decide) (by decide)
  have hu' : u' = fxPatchedUser := by
    have hd : lookupUser (userPatch fxStore 1 fxPatchInp).2 1 = some fxPatchedUser := by
      decide
    exact Option.some.inj (h2.symm.trans hd)
  subst hu'
  exact ⟨by decide, h2, h9⟩

/-- C2 (counterexample): on a valid creation input whose author exists, the
create response body is creation-shaped and therefore contains no
author_name field at all, contrary to the claim. -/
theorem create_response_lacks_author_name :
    lookupUser fxStore 2 = some fxUser2
    ∧ (postCreate fxStore fxCreateInp).1 = .ok (.creation (renderCreatePost fxNewPost))
    ∧ respAuthorName (postCreate fxStore fxCreateInp).1 = none := by
  decide

/-- C2 (amended): for a valid creation input whose author resolves to an
existing User, create succeeds but its own response carries no author_name
(it is creation-shaped); the created Post, read back through the full Post
view, carries author_name equal to that User's first_name at creation time. -/
theorem created_post_author_name (s : Store) (inp : PostInput) (t c : String)
    (a : Nat) (u : User) (hwf : s.Wf) (ht : inp.title = some t)
    (hc : inp.content = some c) (ha : inp.author = some a)
    (hu : lookupUser s a = some u) :
    respAuthorName (postCreate s inp).1 = none
    ∧ (postRetrieve (postCreate s inp).2 s.nextPostId).1 =
        .ok (.full (postViewOf (createdPost s t c a (inp.published.getD false)) u.first_name)) := by
  rcases inp with ⟨ot, oc, oa, op⟩
  have ht' : ot = some t := ht
  have hc' : oc = some c := hc
  have ha' : oa = some a := ha
  subst ht' hc' ha'
  have hstep : postCreate s ⟨some t, some c, some a, op⟩ =
      (.ok (.creation (renderCreatePost (createdPost s t c a (op.getD false)))),
        (insertPost s t c a (op.getD false)).2) := by
    simp [postCreate, hu, get_serializer_class, renderWith, createdPost]
  rw [hstep]
  constructor
  · rfl
  · have hfresh : ∀ y ∈ s.posts, (y.id == s.nextPostId) = false := by
      intro y hy
      have hlt := (hwf.2 y hy).1
      simp [Nat.ne_of_lt hlt]
    have hlp : lookupPost (insertPost s t c a (op.getD false)).2 s.nextPostId =
        some (createdPost s t c a (op.getD false)) := by
      show (s.posts ++ [createdPost s t c a (op.getD false)]).find?
          (fun y => y.id == s.nextPostId) = some (createdPost s t c a (op.getD false))
      exact find?_append_fresh _ s.posts _ hfresh (by simp [createdPost, insertPost])
    have hlu : lookupUser (insertPost s t c a (op.getD false)).2 a = some u := hu
    have hauthor : (createdPost s t c a (op.getD false)).author = a := rfl
    have hrp : renderPost (insertPost s t c a (op.getD false)).2
        (createdPost s t c a (op.getD false)) =
        postViewOf (createdPost s t c a (op.getD false)) u.first_name :=
      renderPost_resolves _ _ u (by rw [hauthor]; exact hlu)
    simp [postRetrieve, hlp, get_serializer_class, renderWith, hrp]

theorem created_post_author_name_witness :
    respAuthorName (postCreate fxStore fxCreateInp).1 = none
    ∧ (postRetrieve (postCreate fxStore fxCreateInp).2 2).1 =
        .ok (.full (postViewOf fxNewPost "C")) := by
  have h := created_post_author_name fxStore fxCreateInp "T2" "C2" 2 fxUser2
    (by decide) rfl rfl rfl (by decide)
  exact ⟨h.1, h.2⟩

/-- C9: in the full Post view used by update and partial update, author is
writable: for every existing Post and every update supplying an existing
User's id as author, the operation stores that author and a subsequent
retrieve renders author_name as the new author's first_name — for partial
update whatever other fields the input supplies, and for full update (which
requires all writable fields) once they are supplied. -/
theorem post_update_author_writable (s : Store) (pid : Nat) (p : Post)
    (u : User) (a : Nat) (inp : PostInput)
    (hp : lookupPost s pid = some p) (hu : lookupUser s a = some u)
    (ha : inp.author = some a) :
    (∀ t c pb, inp.title = some t → inp.content = some c →
      inp.published = some pb →
      ∃ p', lookupPost (postUpdate s pid inp).2 pid = some p' ∧ p'.author = a
        ∧ (postRetrieve (postUpdate s pid inp).2 pid).1 =
            .ok (.full (postViewOf p' u.first_name)))
    ∧ (∃ q', lookupPost (postPatch s pid inp).2 pid = some q' ∧ q'.author = a
      ∧ (postRetrieve (postPatch s pid inp).2 pid).1 =
          .ok (.full (postViewOf q' u.first_name))) := by
  constructor
  · intro t c pb ht hc hpb
    have hid : ({ p with
        title := t, content := c, author := a, published := pb,
        updated_at := s.clock } : Post).id = pid := lookupPost_id s pid p hp
    have hfind := find?_of_set Post.id s.posts pid p _ hid hp
    have hstep : (postUpdate s pid inp).2 =
        { s with
          posts := setPost s.posts { p with
            title := t, content := c, author := a, published := pb,
            updated_at := s.clock }
          clock := s.clock + 1 } := by
      simp only [postUpdate, hp, ht, hc, ha, hpb, hu, savePost]
    have hlp : lookupPost (postUpdate s pid inp).2 pid =
        some { p with
          title := t, content := c, author := a, published := pb,
          updated_at := s.clock } := by
      rw [hstep]
      simpa [lookupPost, setPost] using hfind
    have hlu : lookupUser (postUpdate s pid inp).2 a = some u := by
      rw [hstep]
      exact hu
    refine ⟨_, hlp, rfl, ?_⟩
    have hrp := renderPost_resolves (postUpdate s pid inp).2
      { p with
        title := t, content := c, author := a, published := pb,
        updated_at := s.clock } u hlu
    simp [postRetrieve, hlp, get_serializer_class, renderWith, hrp]
  · have hid : ({ p with
        title := inp.title.getD p.title, content := inp.content.getD p.content,
        author := a, published := inp.published.getD p.published,
        updated_at := s.clock } : Post).id = pid := lookupPost_id s pid p hp
    have hfind := find?_of_set Post.id s.posts pid p _ hid hp
    have hstep : (postPatch s pid inp).2 =
        { s with
          posts := setPost s.posts { p with
            title := inp.title.getD p.title, content := inp.content.getD p.content,
            author := a, published := inp.published.getD p.published,
            updated_at := s.clock }
          clock := s.clock + 1 } := by
      simp only [postPatch, hp, ha, hu, savePost, Option.getD_some,
        Option.isSome_some, if_true]
    have hlp : lookupPost (postPatch s pid inp).2 pid =
        some { p with
          title := inp.title.getD p.title, content := inp.content.getD p.content,
          author := a, published := inp.published.getD p.published,
          updated_at := s.clock } := by
      rw [hstep]
      simpa [lookupPost, setPost] using hfind
    have hlu : lookupUser (postPatch s pid inp).2 a = some u := by
      rw [hstep]
      exact hu
    refine ⟨_, hlp, rfl, ?_⟩
    have hrp := renderPost_resolves (postPatch s pid inp).2
      { p with
        title := inp.title.getD p.title, content := inp.content.getD p.content,
        author := a, published := inp.published.getD p.published,
        updated_at := s.clock } u hlu
    simp [postRetrieve, hlp, get_serializer_class, renderWith, hrp]

theorem post_update_author_writable_witness :
    lookupPost (postPatch fxStore 1 fxAuthorOnlyInp).2 1 = some fxAuthorPatchedPost
    ∧ fxAuthorPatchedPost.author = 2
    ∧ (postRetrieve (postPatch fxStore 1 fxAuthorOnlyInp).2 1).1 =
        .ok (.full (postViewOf fxAuthorPatchedPost "C"))
    ∧ lookupPost (postUpdate fxStore 1 fxUpdateInp).2 1 = some fxUpdatedPost := by
  obtain ⟨-, q', h1, h2, h3⟩ :=
    post_update_author_writable fxStore 1 fxPost fxUser2 2 fxAuthorOnlyInp
      (by decide) (by decide) rfl
  have hq' : q' = fxAuthorPatchedPost := by
    have hd : lookupPost (postPatch fxStore 1 fxAuthorOnlyInp).2 1 =
        some fxAuthorPatchedPost := by decide
    exact Option.some.inj (h1.symm.trans hd)
  subst hq'
  obtain ⟨hput, -⟩ :=
    post_update_author_writable fxStore 1 fxPost fxUser2 2 fxUpdateInp
      (by decide) (by decide) rfl
  obtain ⟨p', g1, g2, g3⟩ := hput "T2" "C2" true rfl rfl rfl
  have hp' : p' = fxUpdatedPost := by
    have gd : lookupPost (postUpdate fxStore 1 fxUpdateInp).2 1 =
        some fxUpdatedPost := by decide
    exact Option.some.inj (g1.symm.trans gd)
  subst hp'
  exact ⟨h1, h2, h3, g1⟩
